import Mathlib

/-!
Shallow embedding of `m_sqlauth.cpp` (Anope SQL authentication module).

Strings are modelled as `List Char` (`Str`).  The external collaborators are
abstracted exactly as the spec describes them:

* the bcrypt primitive `_crypt_blowfish_rn` is an abstract parameter
  `verify : Str → Str → Option Str` returning the recomputed hash on success
  and `none` when it fails (NULL return);
* the `IdentifyRequest` (PendingLogin) is observed through the trace of
  `Hold` / `Success` / `Release` calls made on it;
* the `SQL::Result` is a list of rows whose named fields may be absent
  (an absent field models the `SQL::Exception` thrown by `r.Get`);
* the local account store (`NickAlias` / `NickCore`) is an association list,
  and account materialization is observed through created / email-set events.

Each definition mirrors one function or block of the C++ source; the line
numbers in the doc comments refer to `src/m_sqlauth.cpp`.
-/

namespace SqlAuth

/-- Strings of the embedding (`Anope::string` / `std::string`). -/
abbrev Str := List Char

/-- One row of the SQL lookup result.  A field is `none` when extracting it
with `r.Get(0, ...)` would throw `SQL::Exception` (missing column). -/
structure Row where
  password : Option Str
  email : Option Str
deriving DecidableEq

/-- Calls made on the `IdentifyRequest` (the PendingLogin):
`req->Hold(me)`, `req->Success(me)`, `req->Release(me)`. -/
inductive ReqEvent
  | hold
  | success
  | release
deriving DecidableEq

/-- Diagnostic log lines, one tag per `Log(...)` statement of the source. -/
inductive LogTag
  | notFound
  | found
  | processing
  | bcryptFailed
  | notEqual
  | unsuccessful
  | loggedIn
  | queryError
  | noEngine
  | checking
deriving DecidableEq

/-- Account materialization events: `FOREACH_MOD(OnNickRegister, ...)` on
creation, and the assignment `na->nc->email = email;`. -/
inductive SyncEvent
  | created (name : Str)
  | emailSet (email : Str)
deriving DecidableEq

/-- Terminal outcome of one verification attempt (spec's VerificationOutcome). -/
inductive Outcome
  | NotFound
  | QueryError
  | HashMalformed
  | Mismatch
  | Success
deriving DecidableEq

/-- A local account record: primary nick plus its core's email
(`NickAlias` bound to a `NickCore`). -/
structure Account where
  name : Str
  email : Str
deriving DecidableEq

/-- Data owned by one `SQLAuthResult` verifier: `req->GetAccount()` and the
`currPass` captured at construction. -/
structure VerifierInput where
  account : Str
  currPass : Str
deriving DecidableEq

/-- Everything observable about one attempt once its callback has run:
the terminal outcome, the trace of calls on the PendingLogin (including the
constructor's `Hold` and the destructor's `Release`), the log lines, the
invocations of account synchronization (argument pairs), the sync events
and the resulting account store. -/
structure AttemptResult where
  outcome : Outcome
  reqEvents : List ReqEvent
  logs : List LogTag
  syncCalls : List (Str × Str)
  syncEvents : List SyncEvent
  accounts : List Account
deriving DecidableEq

/-- The 8-character legacy tag, `"bcrypt$$"`. -/
def legacyTag : Str := ['b', 'c', 'r', 'y', 'p', 't', '$', '$']

/-- HashCodec.normalize — lines 68-71:
`if (hash.find("bcrypt$$") == 0) hash = "$" + hash.substr(8);`. -/
def normalizeHash (hash : Str) : Str :=
  if legacyTag.isPrefixOf hash then '$' :: hash.drop 8 else hash

/-- Field extraction — lines 57-65: `hash` and `email` start empty; the
`try` block assigns `password` then `email`; `SQL::Exception` is swallowed,
so a failure on `password` leaves both empty and a failure on `email`
leaves only `email` empty. -/
def extractFields (row : Row) : Str × Str :=
  match row.password with
  | none => ([], [])
  | some p =>
    match row.email with
    | none => (p, [])
    | some e => (p, e)

/-- `NickAlias::Find(req->GetAccount())` — lookup by account name. -/
def findAccount (name : Str) (accts : List Account) : Option Account :=
  accts.find? (fun a => a.name == name)

/-- The effect of `na->nc->email = email;` on the store: every alias bound
to that account core sees the new email. -/
def setEmail (name email : Str) (accts : List Account) : List Account :=
  accts.map (fun a => if a.name == name then { a with email := email } else a)

/-- AccountSynchronizer — lines 101-116: create the account if absent
(emitting `OnNickRegister`), then update the email when the external email
is non-empty and differs from the stored one. -/
def syncAccount (name email : Str) (accts : List Account) :
    List Account × List SyncEvent :=
  let p : List Account × List SyncEvent × Str :=
    match findAccount name accts with
    | none => (({ name := name, email := [] } : Account) :: accts,
               [SyncEvent.created name], ([] : Str))
    | some a => (accts, [], a.email)
  if email ≠ [] ∧ email ≠ p.2.2 then
    (setEmail name email p.1, p.2.1 ++ [SyncEvent.emailSet email])
  else
    (p.1, p.2.1)

/-- The body of `SQLAuthResult::OnResult` after the zero-row check —
lines 54-120: extract fields, normalize the hash, run the bcrypt primitive,
compare, and either terminate or synchronize the account and report success.
Every path ends in `delete this`, whose destructor emits `Release`. -/
def processRow (verify : Str → Str → Option Str) (inp : VerifierInput)
    (row : Row) (accts : List Account) : AttemptResult :=
  match verify inp.currPass (normalizeHash (extractFields row).1) with
  | none =>
    { outcome := Outcome.HashMalformed
      reqEvents := [ReqEvent.hold, ReqEvent.release]
      logs := [LogTag.found, LogTag.processing, LogTag.bcryptFailed]
      syncCalls := []
      syncEvents := []
      accounts := accts }
  | some hashOutput =>
    if normalizeHash (extractFields row).1 = hashOutput then
      { outcome := Outcome.Success
        reqEvents := [ReqEvent.hold, ReqEvent.success, ReqEvent.release]
        logs := [LogTag.found, LogTag.processing, LogTag.loggedIn]
        syncCalls := [(inp.account, (extractFields row).2)]
        syncEvents := (syncAccount inp.account (extractFields row).2 accts).2
        accounts := (syncAccount inp.account (extractFields row).2 accts).1 }
    else
      { outcome := Outcome.Mismatch
        reqEvents := [ReqEvent.hold, ReqEvent.release]
        logs := [LogTag.found, LogTag.processing, LogTag.notEqual,
                 LogTag.unsuccessful]
        syncCalls := []
        syncEvents := []
        accounts := accts }

/-- `SQLAuthResult::OnResult` — lines 45-120, together with the constructor's
`req->Hold(me)` (line 36) and the destructor's `req->Release(me)` (line 42)
that bracket the attempt. -/
def OnResult (verify : Str → Str → Option Str) (inp : VerifierInput)
    (rows : List Row) (accts : List Account) : AttemptResult :=
  match rows with
  | [] =>
    { outcome := Outcome.NotFound
      reqEvents := [ReqEvent.hold, ReqEvent.release]
      logs := [LogTag.notFound]
      syncCalls := []
      syncEvents := []
      accounts := accts }
  | row :: _ => processRow verify inp row accts

/-- `SQLAuthResult::OnError` — lines 122-126: log the query error and
`delete this` (destructor releases). -/
def OnError (accts : List Account) : AttemptResult :=
  { outcome := Outcome.QueryError
    reqEvents := [ReqEvent.hold, ReqEvent.release]
    logs := [LogTag.queryError]
    syncCalls := []
    syncEvents := []
    accounts := accts }

/-- The parameterized query built by `OnCheckAuthentication` — lines 179-191:
template plus the bound values for placeholders `a`, `p`, `n`, `i`. -/
structure BoundQuery where
  template : Str
  a : Str
  p : Str
  n : Str
  i : Str
deriving DecidableEq

/-- A live user session, as far as query binding needs it (`u->nick`,
`u->ip.addr()`). -/
structure UserInfo where
  nick : Str
  ip : Str
deriving DecidableEq

/-- What `OnCheckAuthentication` did before returning: the dispatched query
(if any), the calls already made on the request (the new verifier's
constructor holds it), and the log lines. -/
structure DispatchOutcome where
  dispatched : Option BoundQuery
  reqEvents : List ReqEvent
  logs : List LogTag
deriving DecidableEq

/-- `ModuleSQLAuth::OnCheckAuthentication` — lines 171-195: bail out when no
SQL engine is bound; otherwise bind the placeholders (empty nick/ip without
a session) and dispatch, attaching a fresh verifier whose constructor holds
the request. -/
def OnCheckAuthentication (sqlAvailable : Bool) (queryTemplate : Str)
    (u : Option UserInfo) (account password : Str) : DispatchOutcome :=
  if !sqlAvailable then
    { dispatched := none, reqEvents := [], logs := [LogTag.noEngine] }
  else
    { dispatched := some
        { template := queryTemplate
          a := account
          p := password
          n := match u with | some uu => uu.nick | none => []
          i := match u with | some uu => uu.ip | none => [] }
      reqEvents := [ReqEvent.hold]
      logs := [LogTag.checking] }

/-- Recognizer for account-creation events. -/
def isCreatedEvent : SyncEvent → Bool
  | SyncEvent.created _ => true
  | _ => false

/-- Recognizer for email-update events. -/
def isEmailSetEvent : SyncEvent → Bool
  | SyncEvent.emailSet _ => true
  | _ => false

/-- Recognizer for `Hold` calls. -/
def isHold : ReqEvent → Bool
  | ReqEvent.hold => true
  | _ => false

/-- Recognizer for `Release` calls. -/
def isRelease : ReqEvent → Bool
  | ReqEvent.release => true
  | _ => false

/-- A bcrypt primitive that recomputes exactly the stored hash: the
always-matching instantiation used for concrete runs. -/
def verifyEcho : Str → Str → Option Str := fun _ h => some h

/-- A bcrypt primitive that always fails (NULL return), as on a malformed
or empty setting string. -/
def verifyNone : Str → Str → Option Str := fun _ _ => none

/-- A bcrypt primitive returning a fixed output, used to realize mismatches
on concrete runs. -/
def verifyConst (out : Str) : Str → Str → Option Str := fun _ _ => some out

/-- A list is a prefix of itself followed by anything. -/
theorem isPrefixOfAppend (l r : Str) : l.isPrefixOf (l ++ r) = true := by
  induction l with
  | nil => simp
  | cons a t ih => simp [List.isPrefixOf_cons₂, ih]

/-- Claim C3: an input beginning with the 8-character legacy tag
`"bcrypt$$"` is normalized to `"$"` followed by the remainder after the tag
(so the output begins with `"$"` and no longer begins with the tag, the rest
preserved unchanged); any other input is returned unchanged. -/
theorem normalizeHash_spec (hash rest : Str) :
    (hash = legacyTag ++ rest →
      normalizeHash hash = '$' :: rest ∧
      legacyTag.isPrefixOf (normalizeHash hash) = false ∧
      ['$'].isPrefixOf (normalizeHash hash) = true) ∧
    (legacyTag.isPrefixOf hash = false → normalizeHash hash = hash) := by
  constructor
  · intro h
    subst h
    have hn : normalizeHash (legacyTag ++ rest) = '$' :: rest := by
      simp [normalizeHash, isPrefixOfAppend, legacyTag]
    refine ⟨hn, ?_, ?_⟩ <;> rw [hn] <;>
      simp [legacyTag, List.isPrefixOf_cons₂]
  · intro h
    simp [normalizeHash, h]

/-- Witness for C3 at a concrete legacy-tagged hash and a concrete
untagged hash. -/
theorem normalizeHash_spec_witness :
    (normalizeHash (legacyTag ++ ['2', 'a']) = '$' :: ['2', 'a'] ∧
      legacyTag.isPrefixOf (normalizeHash (legacyTag ++ ['2', 'a'])) = false ∧
      ['$'].isPrefixOf (normalizeHash (legacyTag ++ ['2', 'a'])) = true) ∧
    normalizeHash ['x'] = ['x'] :=
  ⟨(normalizeHash_spec (legacyTag ++ ['2', 'a']) ['2', 'a']).1 rfl,
   (normalizeHash_spec ['x'] []).2 (by decide)⟩

/-- Claim C5: a zero-row lookup result yields NotFound: the verifier logs
and terminates, the PendingLogin is released without success, and account
synchronization is never invoked. -/
theorem onResult_zero_rows (verify : Str → Str → Option Str)
    (inp : VerifierInput) (accts : List Account) :
    OnResult verify inp [] accts =
      { outcome := Outcome.NotFound
        reqEvents := [ReqEvent.hold, ReqEvent.release]
        logs := [LogTag.notFound]
        syncCalls := []
        syncEvents := []
        accounts := accts } := rfl

/-- Claim C9: with no query executor bound, `OnCheckAuthentication` logs and
returns without dispatching a query; the PendingLogin is neither held nor
released because no verifier is constructed. -/
theorem onCheckAuth_no_engine (queryTemplate : Str) (u : Option UserInfo)
    (account password : Str) :
    OnCheckAuthentication false queryTemplate u account password =
      { dispatched := none, reqEvents := [], logs := [LogTag.noEngine] } := rfl

/-- Claim C1: when the primitive succeeds and recomputes exactly the
normalized stored hash, the outcome is Success, account synchronization is
invoked exactly once with the account name from the request, the resulting
store and events are those of that one sync call, and Success is reported
to the PendingLogin before the final release. -/
theorem onResult_match_success (verify : Str → Str → Option Str)
    (inp : VerifierInput) (row : Row) (rest : List Row) (accts : List Account)
    (h : verify inp.currPass (normalizeHash (extractFields row).1) =
      some (normalizeHash (extractFields row).1)) :
    (OnResult verify inp (row :: rest) accts).outcome = Outcome.Success ∧
    (OnResult verify inp (row :: rest) accts).syncCalls =
      [(inp.account, (extractFields row).2)] ∧
    (OnResult verify inp (row :: rest) accts).reqEvents =
      [ReqEvent.hold, ReqEvent.success, ReqEvent.release] ∧
    (OnResult verify inp (row :: rest) accts).accounts =
      (syncAccount inp.account (extractFields row).2 accts).1 ∧
    (OnResult verify inp (row :: rest) accts).syncEvents =
      (syncAccount inp.account (extractFields row).2 accts).2 := by
  simp [OnResult, processRow, h]

/-- Witness for C1: a concrete matching run. -/
theorem onResult_match_success_witness :
    verifyEcho (⟨['a'], ['p', 'w']⟩ : VerifierInput).currPass
        (normalizeHash (extractFields ⟨some ['h'], some ['e']⟩).1) =
      some (normalizeHash (extractFields ⟨some ['h'], some ['e']⟩).1) ∧
    (OnResult verifyEcho ⟨['a'], ['p', 'w']⟩ [⟨some ['h'], some ['e']⟩]
        []).outcome = Outcome.Success :=
  ⟨rfl,
   (onResult_match_success verifyEcho ⟨['a'], ['p', 'w']⟩
     ⟨some ['h'], some ['e']⟩ [] [] rfl).1⟩

/-- Claim C2: when the primitive succeeds but its recomputed hash differs
from the normalized stored hash, the outcome is Mismatch, Success is never
reported on the PendingLogin, account synchronization is not invoked and
the account store is untouched. -/
theorem onResult_mismatch (verify : Str → Str → Option Str)
    (inp : VerifierInput) (row : Row) (rest : List Row) (accts : List Account)
    (out : Str)
    (h : verify inp.currPass (normalizeHash (extractFields row).1) = some out)
    (hne : normalizeHash (extractFields row).1 ≠ out) :
    (OnResult verify inp (row :: rest) accts).outcome = Outcome.Mismatch ∧
    ReqEvent.success ∉ (OnResult verify inp (row :: rest) accts).reqEvents ∧
    (OnResult verify inp (row :: rest) accts).syncCalls = [] ∧
    (OnResult verify inp (row :: rest) accts).syncEvents = [] ∧
    (OnResult verify inp (row :: rest) accts).accounts = accts := by
  simp [OnResult, processRow, h, hne]

/-- Witness for C2: a concrete mismatching run. -/
theorem onResult_mismatch_witness :
    verifyConst ['x'] (⟨['a'], ['p', 'w']⟩ : VerifierInput).currPass
        (normalizeHash (extractFields ⟨some ['h'], none⟩).1) = some ['x'] ∧
    normalizeHash (extractFields ⟨some ['h'], none⟩).1 ≠ ['x'] ∧
    (OnResult (verifyConst ['x']) ⟨['a'], ['p', 'w']⟩ [⟨some ['h'], none⟩]
        []).outcome = Outcome.Mismatch :=
  ⟨rfl, by decide,
   (onResult_mismatch (verifyConst ['x']) ⟨['a'], ['p', 'w']⟩
     ⟨some ['h'], none⟩ [] [] ['x'] rfl (by decide)).1⟩

/-- Claim C6: when the primitive reports a malformed-hash or internal
error (NULL return) — in particular on the empty stored hash that results
from a failed extraction — the outcome is HashMalformed, the verifier logs
and terminates, and Success is never reported on the PendingLogin. -/
theorem onResult_verify_failure (verify : Str → Str → Option Str)
    (inp : VerifierInput) (row : Row) (rest : List Row) (accts : List Account)
    (h : verify inp.currPass (normalizeHash (extractFields row).1) = none) :
    (OnResult verify inp (row :: rest) accts).outcome =
      Outcome.HashMalformed ∧
    ReqEvent.success ∉ (OnResult verify inp (row :: rest) accts).reqEvents ∧
    (OnResult verify inp (row :: rest) accts).logs =
      [LogTag.found, LogTag.processing, LogTag.bcryptFailed] ∧
    (OnResult verify inp (row :: rest) accts).reqEvents =
      [ReqEvent.hold, ReqEvent.release] ∧
    (OnResult verify inp (row :: rest) accts).syncCalls = [] ∧
    (OnResult verify inp (row :: rest) accts).accounts = accts := by
  simp [OnResult, processRow, h]

/-- Witness for C6: the row whose `password` extraction failed, so the
stored hash is empty and the primitive fails. -/
theorem onResult_verify_failure_witness :
    verifyNone (⟨['b'], ['p', 'w']⟩ : VerifierInput).currPass
        (normalizeHash (extractFields ⟨none, none⟩).1) = none ∧
    (OnResult verifyNone ⟨['b'], ['p', 'w']⟩ [⟨none, none⟩] []).outcome =
      Outcome.HashMalformed :=
  ⟨rfl,
   (onResult_verify_failure verifyNone ⟨['b'], ['p', 'w']⟩ ⟨none, none⟩
     [] [] rfl).1⟩

/-- Claim C4: on every outcome path — NotFound, HashMalformed, Mismatch,
Success (via `OnResult`) and QueryError (via `OnError`) — the PendingLogin
trace contains exactly one Hold (the constructor's) and exactly one Release
(the destructor's): no double-release and no leak. -/
theorem hold_release_exactly_once (verify : Str → Str → Option Str)
    (inp : VerifierInput) (rows : List Row) (accts : List Account) :
    ((OnResult verify inp rows accts).reqEvents.countP isHold = 1 ∧
     (OnResult verify inp rows accts).reqEvents.countP isRelease = 1) ∧
    ((OnError accts).reqEvents.countP isHold = 1 ∧
     (OnError accts).reqEvents.countP isRelease = 1) := by
  refine ⟨?_, ⟨rfl, rfl⟩⟩
  cases rows with
  | nil => exact ⟨rfl, rfl⟩
  | cons row rest =>
    cases h : verify inp.currPass (normalizeHash (extractFields row).1) with
    | none =>
      simp only [OnResult, processRow, h]
      exact ⟨rfl, rfl⟩
    | some out =>
      by_cases he : normalizeHash (extractFields row).1 = out
      · simp only [OnResult, processRow, h, if_pos he]
        exact ⟨rfl, rfl⟩
      · simp only [OnResult, processRow, h, if_neg he]
        exact ⟨rfl, rfl⟩

/-- Claim C10: field extraction is tolerant — a missing `password` column
leaves both hash and email empty, a missing `email` column leaves only the
email empty — and a one-row result always proceeds to verification: the
outcome is HashMalformed, Mismatch or Success, never a distinct error. -/
theorem extract_tolerant (row : Row) (verify : Str → Str → Option Str)
    (inp : VerifierInput) (rest : List Row) (accts : List Account) :
    (row.password = none → extractFields row = ([], [])) ∧
    (∀ p, row.password = some p → row.email = none →
      extractFields row = (p, [])) ∧
    ((OnResult verify inp (row :: rest) accts).outcome =
        Outcome.HashMalformed ∨
     (OnResult verify inp (row :: rest) accts).outcome = Outcome.Mismatch ∨
     (OnResult verify inp (row :: rest) accts).outcome = Outcome.Success) := by
  refine ⟨?_, ?_, ?_⟩
  · intro h
    simp [extractFields, h]
  · intro p hp he
    simp [extractFields, hp, he]
  · cases h : verify inp.currPass (normalizeHash (extractFields row).1) with
    | none => simp [OnResult, processRow, h]
    | some out =>
      by_cases he : normalizeHash (extractFields row).1 = out
      · subst he
        simp [OnResult, processRow, h]
      · simp [OnResult, processRow, h, he]

/-- Witness for C10: the missing-password row and the missing-email row. -/
theorem extract_tolerant_witness :
    extractFields ⟨none, none⟩ = ([], []) ∧
    extractFields ⟨some ['h'], none⟩ = (['h'], []) ∧
    ((OnResult verifyNone ⟨['c'], ['p', 'w']⟩ [⟨none, none⟩] []).outcome =
        Outcome.HashMalformed ∨
     (OnResult verifyNone ⟨['c'], ['p', 'w']⟩ [⟨none, none⟩] []).outcome =
        Outcome.Mismatch ∨
     (OnResult verifyNone ⟨['c'], ['p', 'w']⟩ [⟨none, none⟩] []).outcome =
        Outcome.Success) :=
  ⟨(extract_tolerant ⟨none, none⟩ verifyNone ⟨['c'], ['p', 'w']⟩ [] []).1 rfl,
   (extract_tolerant ⟨some ['h'], none⟩ verifyNone ⟨['c'], ['p', 'w']⟩
     [] []).2.1 ['h'] rfl rfl,
   (extract_tolerant ⟨none, none⟩ verifyNone ⟨['c'], ['p', 'w']⟩ [] []).2.2⟩

/-- `setEmail` on a cons unfolds pointwise. -/
theorem setEmail_cons (name email : Str) (a : Account) (t : List Account) :
    setEmail name email (a :: t) =
      (if a.name == name then { a with email := email } else a) ::
        setEmail name email t := rfl

/-- `setEmail` is the identity when no account in the store bears the name. -/
theorem setEmail_eq_of_forall (name email : Str) :
    ∀ accts : List Account, (∀ a ∈ accts, (a.name == name) = false) →
      setEmail name email accts = accts := by
  intro accts
  induction accts with
  | nil =>
    intro _
    rfl
  | cons a t ih =>
    intro h
    have ha := h a (List.mem_cons_self a t)
    have ht := ih (fun x hx => h x (List.mem_cons_of_mem a hx))
    rw [setEmail_cons, ha, ht]
    simp

/-- `setEmail` is the identity when the account is absent. -/
theorem setEmail_absent (name email : Str) (accts : List Account)
    (habs : findAccount name accts = none) :
    setEmail name email accts = accts := by
  refine setEmail_eq_of_forall name email accts (fun a ha => ?_)
  have := List.find?_eq_none.mp habs a ha
  simpa using this

/-- Looking the account up again after `setEmail` finds it with the new
email. -/
theorem findAccount_setEmail (name email : Str) :
    ∀ (accts : List Account) (a : Account),
      findAccount name accts = some a →
      findAccount name (setEmail name email accts) =
        some { a with email := email } := by
  intro accts
  induction accts with
  | nil =>
    intro a h
    cases h
  | cons b t ih =>
    intro a h
    by_cases hb : (b.name == name) = true
    · simp only [findAccount, List.find?_cons, hb] at h
      injection h with h2
      subst h2
      rw [setEmail_cons, if_pos hb]
      simp [findAccount, List.find?_cons, hb]
    · have hbF : (b.name == name) = false := by
        simpa using hb
      simp only [findAccount, List.find?_cons, hbF] at h
      rw [setEmail_cons, if_neg hb]
      simp only [findAccount, List.find?_cons, hbF]
      exact ih a h

/-- `syncAccount` when the account is absent and the external email is
empty: create only. -/
theorem syncAccount_absent_empty (name : Str) (accts : List Account)
    (habs : findAccount name accts = none) :
    syncAccount name [] accts =
      (({ name := name, email := [] } : Account) :: accts,
        [SyncEvent.created name]) := by
  simp [syncAccount, habs]

/-- `syncAccount` when the account is absent and the external email is
non-empty: create, then set the email. -/
theorem syncAccount_absent_nonempty (name email : Str) (accts : List Account)
    (habs : findAccount name accts = none) (hem : email ≠ []) :
    syncAccount name email accts =
      (({ name := name, email := email } : Account) :: accts,
        [SyncEvent.created name, SyncEvent.emailSet email]) := by
  simp only [syncAccount, habs]
  rw [if_pos ⟨hem, hem⟩]
  rw [setEmail_cons, setEmail_absent name email accts habs]
  simp

/-- `syncAccount` when the account exists and no email update applies:
no mutation, no event. -/
theorem syncAccount_found_noop (name email : Str) (accts : List Account)
    (a : Account) (hf : findAccount name accts = some a)
    (hcond : ¬(email ≠ [] ∧ email ≠ a.email)) :
    syncAccount name email accts = (accts, []) := by
  simp only [syncAccount, hf]
  rw [if_neg hcond]

/-- `syncAccount` when the account exists and the email update applies:
set the email, emitting one event. -/
theorem syncAccount_found_update (name email : Str) (accts : List Account)
    (a : Account) (hf : findAccount name accts = some a)
    (hem : email ≠ []) (hne : email ≠ a.email) :
    syncAccount name email accts =
      (setEmail name email accts, [SyncEvent.emailSet email]) := by
  simp only [syncAccount, hf]
  rw [if_pos ⟨hem, hne⟩]
  rfl

/-- Claim C8: account synchronization is idempotent — a second call with
identical (accountName, email) arguments performs no further mutation and
emits no further event, the two calls emit at most one email-update event
in total, and, starting without the account, exactly one account-creation
event in total. -/
theorem syncAccount_idempotent (name email : Str) (accts : List Account) :
    syncAccount name email (syncAccount name email accts).1 =
      ((syncAccount name email accts).1, []) ∧
    ((syncAccount name email accts).2 ++
      (syncAccount name email (syncAccount name email accts).1).2).countP
        isEmailSetEvent ≤ 1 ∧
    (findAccount name accts = none →
      ((syncAccount name email accts).2 ++
        (syncAccount name email (syncAccount name email accts).1).2).countP
          isCreatedEvent = 1) := by
  cases hf : findAccount name accts with
  | none =>
    by_cases hem : email = []
    · subst hem
      have h1 := syncAccount_absent_empty name accts hf
      have hf2 : findAccount name
          (({ name := name, email := [] } : Account) :: accts) =
          some { name := name, email := [] } := by
        simp [findAccount]
      have h2 := syncAccount_found_noop name []
        (({ name := name, email := [] } : Account) :: accts)
        { name := name, email := [] } hf2 (by simp)
      refine ⟨?_, ?_, fun _ => ?_⟩ <;>
        simp [h1, h2, List.countP_cons, isCreatedEvent, isEmailSetEvent]
    · have h1 := syncAccount_absent_nonempty name email accts hf hem
      have hf2 : findAccount name
          (({ name := name, email := email } : Account) :: accts) =
          some { name := name, email := email } := by
        simp [findAccount]
      have h2 := syncAccount_found_noop name email
        (({ name := name, email := email } : Account) :: accts)
        { name := name, email := email } hf2 (by simp)
      refine ⟨?_, ?_, fun _ => ?_⟩ <;>
        simp [h1, h2, List.countP_cons, isCreatedEvent, isEmailSetEvent]
  | some a =>
    by_cases hcond : email ≠ [] ∧ email ≠ a.email
    · have h1 := syncAccount_found_update name email accts a hf
        hcond.1 hcond.2
      have hf2 := findAccount_setEmail name email accts a hf
      have h2 := syncAccount_found_noop name email (setEmail name email accts)
        { a with email := email } hf2 (by simp)
      refine ⟨?_, ?_, fun hny => ?_⟩
      · simp [h1, h2]
      · simp [h1, h2, List.countP_cons, isEmailSetEvent]
      · cases hny
    · have h1 := syncAccount_found_noop name email accts a hf hcond
      refine ⟨?_, ?_, fun hny => ?_⟩
      · simp [h1]
      · simp [h1]
      · cases hny

/-- Witness for C8: syncing account `"a"` with email `"e"` twice into an
empty store. -/
theorem syncAccount_idempotent_witness :
    findAccount ['a'] ([] : List Account) = none ∧
    syncAccount ['a'] ['e'] (syncAccount ['a'] ['e'] []).1 =
      ((syncAccount ['a'] ['e'] []).1, []) ∧
    ((syncAccount ['a'] ['e'] ([] : List Account)).2 ++
      (syncAccount ['a'] ['e']
        (syncAccount ['a'] ['e'] ([] : List Account)).1).2).countP
        isCreatedEvent = 1 :=
  ⟨rfl, (syncAccount_idempotent ['a'] ['e'] []).1,
   (syncAccount_idempotent ['a'] ['e'] []).2.2 rfl⟩

end SqlAuth
